import Mathlib

/-!
Shallow embedding of `drivechain/drivechain.go` (package `drivechain`),
the mainchain-reconciliation layer of the `ethside` sidechain.

Conventions of the embedding:
* Go `byte` values are `Nat` (always `< 256` where produced by the code);
  byte slices are `List Nat`.
* `*big.Int` is `Int`; the Go `big.Int.Div` is Euclidean division, embedded as
  `Int.ediv` (identical to truncation on the nonnegative operands used here).
* the Go `uint64` → `int64` conversion (as in `big.NewInt(int64(x))`) is
  `toInt64`, with the wrap at `2 ^ 63` made explicit.
* Hex strings (`common.Hash` ids, account addresses) stay `String`; the
  go-ethereum parsers `common.HexToAddress` / `common.HexToHash` are external
  library code, kept abstract as a parameter where a claim needs them.
-/

namespace Drivechain

/-- `var Satoshi = big.NewInt(10_000_000_000)` — there are 10^10 Wei in one
satoshi (drivechain.go line 43). -/
def Satoshi : Int := 10000000000

/-- `const TREASURY_ACCOUNT = "0xc96aaa54e2d44c299564da76e1cd3184a2386b8d"`
(drivechain.go line 40). -/
def TREASURY_ACCOUNT : String := "0xc96aaa54e2d44c299564da76e1cd3184a2386b8d"

/-- `const FeeLength = 8` (drivechain.go line 193). -/
def FeeLength : Nat := 8

/-- `const MainchainAddressLength = 20` (drivechain.go line 194). -/
def MainchainAddressLength : Nat := 20

/-- the Go `int64(x)` conversion applied to an unsigned 64-bit quantity:
the value is reduced mod `2 ^ 64` and reinterpreted as a signed two-complement 64-bit integer. -/
def toInt64 (n : Nat) : Int :=
  if n % 2 ^ 64 < 2 ^ 63 then ((n % 2 ^ 64 : Nat) : Int)
  else ((n % 2 ^ 64 : Nat) : Int) - 2 ^ 64

/-- `binary.BigEndian.Uint64`: read a byte slice as a big-endian unsigned
64-bit integer (on true bytes, each `< 256`, the fold never exceeds
`2 ^ 64` for 8 bytes). -/
def beUint64 (bs : List Nat) : Nat :=
  bs.foldl (fun acc b => acc * 256 + b) 0

/-- `binary.BigEndian.PutUint64`: the 8 big-endian bytes of a `uint64`. -/
def putUint64BE (u : Nat) : List Nat :=
  [u / 2 ^ 56 % 256, u / 2 ^ 48 % 256, u / 2 ^ 40 % 256, u / 2 ^ 32 % 256,
   u / 2 ^ 24 % 256, u / 2 ^ 16 % 256, u / 2 ^ 8 % 256, u % 256]

/-- `type Withdrawal struct { Address [20]C.uchar; Amount *big.Int; Fee *big.Int }`
(drivechain.go lines 138-142). -/
structure Withdrawal where
  Address : List Nat
  Amount : Int
  Fee : Int
deriving DecidableEq, BEq

/-- `type Deposit struct { Address common.Address; Amount *big.Int }`
(drivechain.go lines 133-136); the parsed 20-byte address is a `List Nat`. -/
structure Deposit where
  Address : List Nat
  Amount : Int
deriving DecidableEq, BEq

/-- `type RawDeposit struct { address string; amount uint64 }`
(drivechain.go lines 109-112), as reported by the engine. -/
structure RawDeposit where
  address : String
  amount : Nat
deriving DecidableEq, BEq

/-- One record of the engine `get_unspent_withdrawals` result: a hex id,
a 20-byte mainchain address and `uint64` amount and fee, as consumed by
`GetUnspentWithdrawals` (drivechain.go lines 243-255). -/
structure RawWithdrawal where
  id : String
  address : List Nat
  amount : Nat
  fee : Nat
deriving DecidableEq, BEq

/-- `type Refund struct { Id common.Hash; Amount *big.Int }`
(drivechain.go lines 144-147). -/
structure Refund where
  Id : String
  Amount : Int
deriving DecidableEq, BEq

/-- `amount.Div(value, Satoshi)` — `// Convert Wei to Satoshi.`
(drivechain.go lines 224-226). the Go `big.Int.Div` is Euclidean division,
which is exactly the `/` of `Int` (`Int.ediv`). -/
def weiToSatoshi (value : Int) : Int := value / Satoshi

/-- `amount.Mul(big.NewInt(...), Satoshi)` — the satoshi-to-Wei scaling
used in `GetUnspentWithdrawals` (drivechain.go lines 246-247). -/
def satoshiToWei (x : Int) : Int := x * Satoshi

/-- Result of `DecodeWithdrawal`: the Go function returns
`(Withdrawal, error)` and has two `panic("off by one error")` branches. -/
inductive DecodeResult where
  | ok : Withdrawal → DecodeResult
  | lengthError : DecodeResult
  | offByOne : DecodeResult
deriving DecidableEq, BEq

/-- `func DecodeWithdrawal(value *big.Int, data []byte) (Withdrawal, error)`
(drivechain.go lines 208-233), with every branch of the source kept:
the length check, the two off-by-one assertion checks, the Wei→satoshi
division for the amount, and the `big.NewInt(int64(BigEndian.Uint64(...)))`
fee read. -/
def DecodeWithdrawal (value : Int) (data : List Nat) : DecodeResult :=
  if data.length ≠ FeeLength + MainchainAddressLength then
    .lengthError
  else
    let feeBytes := data.take FeeLength
    if feeBytes.length ≠ FeeLength then
      .offByOne
    else
      let addressBytes := (data.drop FeeLength).take MainchainAddressLength
      if addressBytes.length ≠ MainchainAddressLength then
        .offByOne
      else
        .ok { Address := addressBytes
              Amount := weiToSatoshi value
              Fee := toInt64 (beUint64 feeBytes) }

/-- `func GetWithdrawalData(fee uint64) []byte` (drivechain.go lines 197-206):
8 big-endian fee bytes followed by the 20-byte mainchain address obtained
from `C.get_new_mainchain_address()`; the address is a parameter here. -/
def GetWithdrawalData (fee : Nat) (newMainchainAddress : List Nat) : List Nat :=
  putUint64BE fee ++ newMainchainAddress

/-- `func GetDepositOutputs() ([]Deposit, error)` (drivechain.go lines
149-162), successful path: each raw record maps to
`Deposit{Address: common.HexToAddress(raw.address), Amount: big.NewInt(int64(raw.amount))}`.
The library parser `common.HexToAddress` is the `hexToAddress` parameter.
Note the source performs no `Satoshi` scaling on the amount. -/
def GetDepositOutputs (hexToAddress : String → List Nat)
    (raws : List RawDeposit) : List Deposit :=
  raws.map fun r => { Address := hexToAddress r.address, Amount := toInt64 r.amount }

/-- The per-record conversion inside `GetUnspentWithdrawals`
(drivechain.go lines 243-252): `Amount = int64(raw.amount) * Satoshi`,
`Fee = int64(raw.fee) * Satoshi`, address copied. -/
def convertWithdrawal (r : RawWithdrawal) : Withdrawal :=
  { Address := r.address
    Amount := satoshiToWei (toInt64 r.amount)
    Fee := satoshiToWei (toInt64 r.fee) }

/-- `func GetUnspentWithdrawals() map[common.Hash]Withdrawal`
(drivechain.go lines 239-259): the record list of the engine keyed by its hex id
(`common.HexToHash` parse left abstract — keys stay the id strings). -/
def GetUnspentWithdrawals (raws : List RawWithdrawal) : List (String × Withdrawal) :=
  raws.map fun r => (r.id, convertWithdrawal r)

/-- One character of the Go `strings.ToLower`: on the ASCII range (the only
characters occurring in the hex account strings it is applied to here)
uppercase letters map to lowercase and every other character is kept. -/
def toLowerChar (c : Char) : Char :=
  if 65 ≤ c.toNat ∧ c.toNat ≤ 90 then Char.ofNat (c.toNat + 32) else c

/-- the Go `strings.ToLower` as used on `address.Hex()` in `Init`
(drivechain.go line 58), character by character. -/
def stringsToLower (s : String) : String := String.mk (s.data.map toLowerChar)

/-- Outcome of `Init` (drivechain.go lines 52-100): `panicked` models the
`panic` on treasury-account mismatch (abrupt process failure, before any
RPC request is made), `rpcError` the returned error when the mainchain RPC
connectivity check fails, `ok` the nil return. -/
inductive InitResult where
  | panicked : InitResult
  | rpcError : InitResult
  | ok : InitResult
deriving DecidableEq, BEq

/-- `func Init(...)` (drivechain.go lines 52-100), treasury-guard portion:
`actualTreasuryAccount := strings.ToLower(address.Hex())` and
`if TREASURY_ACCOUNT != actualTreasuryAccount { panic(...) }`; only then is
the RPC connectivity check performed (its outcome is the `rpcOk` parameter;
the ECDSA address derivation is external library code, so the derived
address hex string is the `derivedAddressHex` parameter). -/
def Init (derivedAddressHex : String) (rpcOk : Bool) : InitResult :=
  if TREASURY_ACCOUNT ≠ stringsToLower derivedAddressHex then .panicked
  else if rpcOk then .ok else .rpcError

/-- Modelled from the spec: the persistent peg state of the opaque engine
(sections 4.7 and 6 of the design). The engine — not under `src/` — is the
sole owner of confirmed deposit/withdrawal/outpoint state; `connect_block`
is declared in `bindings.h` and only called from `ConnectBlock`. -/
structure EngineState where
  treasuryBalance : Int
  unspentWithdrawals : List RawWithdrawal
  spentWithdrawalIds : List String
  depositOutputs : List RawDeposit
  consumedDeposits : List Deposit
deriving DecidableEq, BEq

/-- The total sidechain-unit value the withdrawals of a block ask to move. -/
def withdrawalsTotal (ws : List (String × Withdrawal)) : Int :=
  (ws.map fun p => p.2.Amount + p.2.Fee).sum

/-- Modelled from the spec: the engine operation `connect_block(deposits,
withdrawals, refunds, just_checking)` (section 4.7; the implementation is
behind the C boundary, not under `src/`). Full validation — sufficient
treasury balance, no double-application of an already-spent withdrawal id,
deposit outputs not already consumed — is performed in both modes; when
`just_checking` is true the verdict is reported and the state is returned
untouched, otherwise the net effect of an accepted block is applied. -/
def connect_block (st : EngineState) (deposits : List Deposit)
    (withdrawals : List (String × Withdrawal)) (refunds : List Refund)
    (just_checking : Bool) : Bool × EngineState :=
  let outgoing := withdrawalsTotal withdrawals + (refunds.map Refund.Amount).sum
  let valid :=
    decide (outgoing ≤ st.treasuryBalance) &&
    withdrawals.all (fun p => !(st.spentWithdrawalIds.contains p.1)) &&
    deposits.all (fun d => !(st.consumedDeposits.contains d))
  if valid then
    if just_checking then
      (true, st)
    else
      (true,
        { st with
          treasuryBalance := st.treasuryBalance - outgoing
          spentWithdrawalIds := st.spentWithdrawalIds ++ withdrawals.map Prod.fst
          consumedDeposits := st.consumedDeposits ++ deposits })
  else
    (false, st)

/-- `func ConnectBlock(deposits, withdrawals, refunds, just_checking) bool`
(drivechain.go lines 165-170): forwards the block to the engine via its
`connect_block`, threading the engine state explicitly here. -/
def ConnectBlock (st : EngineState) (deposits : List Deposit)
    (withdrawals : List (String × Withdrawal)) (refunds : List Refund)
    (just_checking : Bool) : Bool × EngineState :=
  connect_block st deposits withdrawals refunds just_checking

/-! ## Helper lemmas -/

/-- On a 28-byte payload, `DecodeWithdrawal` takes the `ok` branch: the two
internal slice-length assertions hold, the address is bytes 8..27, the
amount is the Wei→satoshi division and the fee the big-endian read of
bytes 0..7 cast through `int64`. -/
theorem decode_of_length_eq (value : Int) (data : List Nat)
    (h : data.length = 28) :
    DecodeWithdrawal value data =
      .ok { Address := (data.drop FeeLength).take MainchainAddressLength
            Amount := weiToSatoshi value
            Fee := toInt64 (beUint64 (data.take FeeLength)) } := by
  have h1 : (data.take FeeLength).length = FeeLength := by
    simp [List.length_take, FeeLength, h]
  have h2 : ((data.drop FeeLength).take MainchainAddressLength).length =
      MainchainAddressLength := by
    simp [List.length_take, List.length_drop, FeeLength, MainchainAddressLength, h]
  simp [DecodeWithdrawal, FeeLength, MainchainAddressLength, h, h1, h2] at h1 h2 ⊢

/-- On any payload whose length is not 28, `DecodeWithdrawal` returns the
typed length error. -/
theorem decode_of_length_ne (value : Int) (data : List Nat)
    (h : data.length ≠ 28) :
    DecodeWithdrawal value data = .lengthError := by
  simp [DecodeWithdrawal, FeeLength, MainchainAddressLength, h]

/-- Serializing a `uint64` big-endian and reading it back yields the value
reduced mod `2 ^ 64`. -/
theorem beUint64_putUint64BE (u : Nat) : beUint64 (putUint64BE u) = u % 2 ^ 64 := by
  simp only [beUint64, putUint64BE, List.foldl]
  omega

/-- The `int64` cast is the identity below `2 ^ 63`. -/
theorem toInt64_of_lt (n : Nat) (h : n < 2 ^ 63) : toInt64 n = (n : Int) := by
  have h64 : n % 2 ^ 64 = n := Nat.mod_eq_of_lt (by omega)
  unfold toInt64
  rw [h64, if_pos h]

/-! ## Claims -/

/-- Claim C1 (code bug, evaluated at the failing input): `GetDepositOutputs`
does not scale the engine-reported mainchain-unit amount by the 10^10
ratio — a raw deposit of 1 satoshi is credited as `Amount = 1`, not
`1 * Satoshi = 10^10`, contradicting the conversion the spec (and the
unit comments of the file itself) require. -/
theorem getDepositOutputs_amount_not_scaled :
    GetDepositOutputs (fun _ => List.replicate 20 0) [{ address := "addr", amount := 1 }] =
      [{ Address := List.replicate 20 0, Amount := 1 }] ∧
    (1 : Int) ≠ satoshiToWei 1 := by
  constructor
  · rfl
  · decide

/-- Claim C2 (code bug, evaluated at the failing input): for an engine
withdrawal record with `amount = 2 ^ 63`, `GetUnspentWithdrawals` computes
`Amount = int64(2 ^ 63) * Satoshi = -(2 ^ 63) * Satoshi`, a negative value,
instead of the exact nonnegative `2 ^ 63 * Satoshi` the claim requires. -/
theorem getUnspentWithdrawals_sign_flip :
    GetUnspentWithdrawals [{ id := "00"
                             address := List.replicate 20 0
                             amount := 2 ^ 63
                             fee := 0 }] =
      [("00", { Address := List.replicate 20 0
                Amount := -(2 ^ 63) * Satoshi
                Fee := 0 })] ∧
    (-(2 ^ 63) * Satoshi : Int) < 0 ∧
    (-(2 ^ 63) * Satoshi : Int) ≠ (2 ^ 63 : Nat) * Satoshi := by
  refine ⟨by decide, by decide, by decide⟩

/-- Claim C3 (code bug, evaluated at the failing input): on the 28-byte
payload whose first 8 bytes big-endian read as `2 ^ 63`, `DecodeWithdrawal`
returns `Fee = -(2 ^ 63)` (the `big.NewInt(int64(...))` cast flips the
sign), not the nonnegative big-endian value `2 ^ 63` the claim requires. -/
theorem decodeWithdrawal_fee_sign_flip :
    beUint64 ((128 :: List.replicate 27 0).take FeeLength) = 2 ^ 63 ∧
    DecodeWithdrawal 0 (128 :: List.replicate 27 0) =
      .ok { Address := List.replicate 20 0, Amount := 0, Fee := -(2 ^ 63) } ∧
    (-(2 ^ 63) : Int) ≠ ((2 ^ 63 : Nat) : Int) := by
  refine ⟨by decide, by decide, by decide⟩

/-- Claim C4, counterexample: at `fee = 2 ^ 63` the encode/decode round trip
fails — the decoded `Fee` is `-(2 ^ 63)`, not `2 ^ 63` — because of the
`int64` cast in `DecodeWithdrawal`. -/
theorem roundtrip_fails_at_two_pow_63 :
    DecodeWithdrawal 0 (GetWithdrawalData (2 ^ 63) (List.replicate 20 0)) =
      .ok { Address := List.replicate 20 0, Amount := 0, Fee := -(2 ^ 63) } ∧
    (-(2 ^ 63) : Int) ≠ ((2 ^ 63 : Nat) : Int) := by
  refine ⟨by decide, by decide⟩

/-- Claim C4 (amended): for every fee below `2 ^ 63` and every 20-byte
mainchain address, decoding the 28-byte payload produced by
`GetWithdrawalData` recovers exactly that fee and that address (for any
transfer value). -/
theorem decode_getWithdrawalData_roundtrip (v : Int) (fee : Nat) (addr : List Nat)
    (hfee : fee < 2 ^ 63) (haddr : addr.length = 20) :
    DecodeWithdrawal v (GetWithdrawalData fee addr) =
      .ok { Address := addr, Amount := weiToSatoshi v, Fee := (fee : Int) } := by
  have hlen : (GetWithdrawalData fee addr).length = 28 := by
    simp [GetWithdrawalData, putUint64BE, haddr]
  rw [decode_of_length_eq v _ hlen]
  have htake : (GetWithdrawalData fee addr).take FeeLength = putUint64BE fee := by
    simp [GetWithdrawalData, FeeLength, putUint64BE]
  have hdrop : ((GetWithdrawalData fee addr).drop FeeLength).take
      MainchainAddressLength = addr := by
    have hd : (GetWithdrawalData fee addr).drop FeeLength = addr := by
      simp [GetWithdrawalData, FeeLength, putUint64BE]
    have htk : addr.take MainchainAddressLength = addr :=
      List.take_of_length_le (by simp [haddr, MainchainAddressLength])
    rw [hd, htk]
  rw [htake, hdrop, beUint64_putUint64BE]
  rw [Nat.mod_eq_of_lt (by omega), toInt64_of_lt fee hfee]

/-- Claim C4, witness of the amended round trip at `fee = 1000`. -/
theorem decode_getWithdrawalData_roundtrip_witness :
    DecodeWithdrawal 0 (GetWithdrawalData 1000 (List.replicate 20 0)) =
      .ok { Address := List.replicate 20 0, Amount := weiToSatoshi 0,
            Fee := (1000 : Int) } :=
  decode_getWithdrawalData_roundtrip 0 1000 (List.replicate 20 0)
    (by decide) (by decide)

/-- Claim C5: scaling a satoshi amount up by the exact multiplication of
`GetUnspentWithdrawals` and back down by the Euclidean division of
`DecodeWithdrawal` is the identity; in the inverse direction a nonnegative
Wei value that is not a multiple of `Satoshi` drops its remainder (in
particular 1 Wei converts down to 0 satoshi). -/
theorem unit_conversion_roundtrip :
    (∀ x : Int, weiToSatoshi (satoshiToWei x) = x) ∧
    (∀ v : Int, 0 ≤ v → v % Satoshi ≠ 0 →
      satoshiToWei (weiToSatoshi v) ≠ v) ∧
    weiToSatoshi 1 = 0 := by
  refine ⟨?_, ?_, by decide⟩
  · intro x
    simp only [weiToSatoshi, satoshiToWei, Satoshi]
    omega
  · intro v hv hmod
    simp only [weiToSatoshi, satoshiToWei, Satoshi] at hmod ⊢
    omega

/-- Claim C5, witness: the round trip at 7 satoshi, and the dropped
remainder at 3 Wei. -/
theorem unit_conversion_roundtrip_witness :
    weiToSatoshi (satoshiToWei 7) = 7 ∧ satoshiToWei (weiToSatoshi 3) ≠ 3 :=
  ⟨unit_conversion_roundtrip.1 7,
   unit_conversion_roundtrip.2.1 3 (by decide) (by decide)⟩

/-- Claim C6: `DecodeWithdrawal` returns the typed bad-length error exactly
when the payload length differs from 28, and on every 28-byte payload it
returns a withdrawal and no error. -/
theorem decodeWithdrawal_length_contract (value : Int) (data : List Nat) :
    (DecodeWithdrawal value data = .lengthError ↔ data.length ≠ 28) ∧
    (data.length = 28 → ∃ w, DecodeWithdrawal value data = .ok w) := by
  by_cases h : data.length = 28
  · refine ⟨?_, fun _ => ⟨_, decode_of_length_eq value data h⟩⟩
    rw [decode_of_length_eq value data h]
    simp [h]
  · refine ⟨?_, fun hc => absurd hc h⟩
    rw [decode_of_length_ne value data h]
    simp [h]

/-- Claim C6, witness: the empty payload is rejected with the length error
and a 28-byte payload decodes. -/
theorem decodeWithdrawal_length_contract_witness :
    DecodeWithdrawal 0 [] = .lengthError ∧
    ∃ w, DecodeWithdrawal 0 (List.replicate 28 0) = .ok w :=
  ⟨(decodeWithdrawal_length_contract 0 []).1.mpr (by decide),
   (decodeWithdrawal_length_contract 0 (List.replicate 28 0)).2 (by decide)⟩

/-- Claim C7: encoding fee 1000 with the 20-zero-byte address yields the
28-byte payload `0x00000000000003E8` followed by twenty zero bytes, and
decoding that payload at value 10^10 Wei yields the zero address,
amount 1 satoshi and fee 1000. -/
theorem withdrawal_codec_scenario :
    GetWithdrawalData 1000 (List.replicate 20 0) =
      [0, 0, 0, 0, 0, 0, 3, 232] ++ List.replicate 20 0 ∧
    DecodeWithdrawal 10000000000 (GetWithdrawalData 1000 (List.replicate 20 0)) =
      .ok { Address := List.replicate 20 0, Amount := 1, Fee := 1000 } := by
  refine ⟨by decide, by decide⟩

/-- Claim C8: `Init` compares the lowercased derived address to
`TREASURY_ACCOUNT`; on mismatch it panics — the same outcome whatever the
RPC check would have returned, which is therefore never reached — and on a
match (the derived hex in any letter case) it never panics. -/
theorem init_treasury_guard (s : String) (r r2 : Bool) :
    (stringsToLower s ≠ TREASURY_ACCOUNT →
      Init s r = .panicked ∧ Init s r = Init s r2) ∧
    (stringsToLower s = TREASURY_ACCOUNT → Init s r ≠ .panicked) := by
  constructor
  · intro h
    have hne : TREASURY_ACCOUNT ≠ stringsToLower s := fun hc => h hc.symm
    simp [Init, hne]
  · intro h
    have hcond : ¬ (TREASURY_ACCOUNT ≠ stringsToLower s) := by
      rw [h]
      exact fun hc => hc rfl
    cases r <;> simp [Init, hcond]

/-- Claim C8, witness: a wrong derived address panics; the correct derived
address in upper case passes the guard. -/
theorem init_treasury_guard_witness :
    Init "0xffff" true = .panicked ∧
    Init "0xC96AAA54E2D44C299564DA76E1CD3184A2386B8D" true ≠ .panicked :=
  ⟨((init_treasury_guard "0xffff" true false).1 (by decide)).1,
   (init_treasury_guard "0xC96AAA54E2D44C299564DA76E1CD3184A2386B8D" true true).2
     (by decide)⟩

/-- Claim C9 (engine modelled from the spec): a dry-run `ConnectBlock`
returns the engine state unchanged, so subsequent `GetUnspentWithdrawals`
and `GetDepositOutputs` results are identical to what they were before. -/
theorem connectBlock_dryrun_no_mutation (st : EngineState) (deposits : List Deposit)
    (withdrawals : List (String × Withdrawal)) (refunds : List Refund)
    (hexToAddress : String → List Nat) :
    (ConnectBlock st deposits withdrawals refunds true).2 = st ∧
    GetUnspentWithdrawals
        ((ConnectBlock st deposits withdrawals refunds true).2).unspentWithdrawals =
      GetUnspentWithdrawals st.unspentWithdrawals ∧
    GetDepositOutputs hexToAddress
        ((ConnectBlock st deposits withdrawals refunds true).2).depositOutputs =
      GetDepositOutputs hexToAddress st.depositOutputs := by
  have h : (ConnectBlock st deposits withdrawals refunds true).2 = st := by
    simp only [ConnectBlock, connect_block]
    split
    · rfl
    · rfl
  exact ⟨h, by rw [h], by rw [h]⟩

/-- Claim C10: `DecodeWithdrawal` never reaches its two internal
`panic("off by one error")` branches: on every input it returns either the
typed length error or a decoded withdrawal. -/
theorem decodeWithdrawal_no_assertion_failure (value : Int) (data : List Nat) :
    DecodeWithdrawal value data = .lengthError ∨
      ∃ w, DecodeWithdrawal value data = .ok w := by
  by_cases h : data.length = 28
  · exact .inr ⟨_, decode_of_length_eq value data h⟩
  · exact .inl (decode_of_length_ne value data h)

end Drivechain
